import Mathlib

set_option maxHeartbeats 1000000

/-
Shallow embedding of the two services of the repository
(src/dashboard-api/main.py and src/dss-api/main.py) and proofs of the
behavioural claims about them.

Both services keep their state in Python dicts of dicts
(requests_storage, jobs_storage).  We model a Python dict with string
keys as an insertion-ordered association list; lookup takes the first
entry with the key and assignment overwrites in place or appends.
Python exceptions that the code does not catch are modelled by Option
(none = uncaught exception); code whose errors are caught and turned
into values is modelled with Except.
-/

namespace DssSeq

/-- JSON-like values stored in the in-memory dictionaries of both
services.  Opaque nested payloads that the code never inspects (for
example the result object attached by the DSS callback) are abstracted
by a numeric tag; `payload 0` stands for the empty dict used by
callback_data.get with default. -/
inductive Val where
  | str : String → Val
  | payload : Nat → Val
  deriving DecidableEq

/-- A Python dict with string keys, as an insertion-ordered association
list with unique keys. -/
abbrev Dict (α : Type) := List (String × α)

/-- Python d.get(k) (also the test `k in d`): first entry with the key. -/
def lookupA {α : Type} : Dict α → String → Option α
  | [], _ => none
  | p :: rest, k => if p.1 = k then some p.2 else lookupA rest k

/-- Python d[k] = v: overwrite the entry in place if the key exists,
else append a new entry at the end (dict insertion order). -/
def setA {α : Type} : Dict α → String → α → Dict α
  | [], k, v => [(k, v)]
  | p :: rest, k, v => if p.1 = k then (k, v) :: rest else p :: setA rest k v

/-- One record of requests_storage in src/dashboard-api/main.py. -/
abbrev Record := Dict Val

/-- requests_storage: Dict[str, Dict[str, Any]], keyed by request_id. -/
abbrev Registry := Dict Record

/-- Request body of POST /f1/request-tool (class F1ToolRequest). -/
structure F1ToolRequest where
  building_id : String
  optimization_type : String
  user_id : String
  callback_url : Option String
  deriving DecidableEq

/-- Response of POST /f1/request-tool (class F1ToolResponse). -/
structure F1ToolResponse where
  request_id : String
  status : String
  message : String
  dss_job_id : Option String
  deriving DecidableEq

/-- The request_id format of request_f1_tool (main.py line 285):
f"req_\x7bdatetime.now().strftime(timefmt)\x7d_\x7buser_id\x7d" where the
stamp argument stands for the formatted current time (format
%Y%m%d_%H%M%S, a fixed 15-character string). -/
def mkRequestId (stamp user_id : String) : String :=
  "req_" ++ stamp ++ "_" ++ user_id

/-- The dict literal stored by request_f1_tool (main.py lines 288-295). -/
def createRecord (request_id created_at : String) (req : F1ToolRequest) : Record :=
  [("request_id", .str request_id),
   ("user_id", .str req.user_id),
   ("building_id", .str req.building_id),
   ("optimization_type", .str req.optimization_type),
   ("status", .str "initiated"),
   ("created_at", .str created_at)]

/-- POST /f1/request-tool (main.py lines 282-306).  The current wall
clock enters as the formatted stamp and the created_at iso string.
Scheduling of the background task is modelled separately by the Event
machine below. -/
def request_f1_tool (storage : Registry) (stamp created_at : String)
    (req : F1ToolRequest) : Registry × F1ToolResponse :=
  let request_id := mkRequestId stamp req.user_id
  (setA storage request_id (createRecord request_id created_at req),
   { request_id := request_id,
     status := "initiated",
     message := "DSS F1 energy optimization request initiated for building "
       ++ req.building_id ++ " (" ++ req.optimization_type ++ ")",
     dss_job_id := none })

/-- Body of the POST /webhooks/dss-callback webhook, as the code reads
it: callback_data.get of the job_id key and of the result key (none
when the key is absent). -/
structure CallbackData where
  job_id : Option Val
  result : Option Val
  deriving DecidableEq

/-- The three writes applied to a matched record by dss_webhook_callback
(main.py lines 361-363), in source order; now is the current
datetime.now().isoformat(). -/
def completeRecord (r : Record) (cb : CallbackData) (now : String) : Record :=
  setA (setA (setA r "status" (.str "completed"))
      "dss_result" (cb.result.getD (.payload 0)))
    "completed_at" (.str now)

/-- The match test of the webhook loop (main.py lines 357-359):
request_data of user_id compared to the path user_id, and
request_data.get of dss_job_id compared to callback_data.get of job_id.
Returns none when the record has no user_id key (Python KeyError). -/
def webhookMatch (r : Record) (user_id : String) (cb : CallbackData) : Option Bool :=
  match lookupA r "user_id" with
  | none => none
  | some v =>
      some (decide (v = Val.str user_id) && decide (lookupA r "dss_job_id" = cb.job_id))

/-- The scan of the webhook loop: walk the registry in insertion order,
update the first matching record via completeRecord and break; records
after the first match are never examined.  The Bool reports whether a
match was found (the break was taken).  none models an uncaught
KeyError on a scanned record without a user_id key. -/
def scanRecords (user_id : String) (cb : CallbackData) (now : String) :
    Registry → Option (Registry × Bool)
  | [] => some ([], false)
  | (rid, r) :: rest =>
      match webhookMatch r user_id cb with
      | none => none
      | some true => some ((rid, completeRecord r cb now) :: rest, true)
      | some false =>
          match scanRecords user_id cb now rest with
          | none => none
          | some (rest2, m) => some ((rid, r) :: rest2, m)

/-- POST /webhooks/dss-callback (main.py lines 349-368).  The HTTP body
returned to the caller is the constant dict with status
callback_received whether or not a match was found; the Bool is the
internal matched outcome (whether the break was taken). -/
def dss_webhook_callback (storage : Registry) (user_id : String)
    (cb : CallbackData) (now : String) : Option (Registry × Bool) :=
  scanRecords user_id cb now storage

/-- The credential payload stored by SSEPullCredentialsReceiver, as far
as the code inspects it: only the authKey and token keys of the parsed
SSE data dict are ever read (main.py line 160). -/
structure Credential where
  authKey : Option String
  token : Option String
  deriving DecidableEq

/-- The polling loop body of SSEPullCredentialsReceiver.get_credentials
(main.py lines 105-108): at each 1-second tick, test whether the
transfer_id key is in self.credentials and return its value if so.
credsAt gives the contents of self.credentials at each tick (the SSE
listener task fills it concurrently); the fuel is the number of loop
iterations left. -/
def pollCredentials (credsAt : Nat → Dict Credential) (transfer_id : String) :
    Nat → Nat → Except String Credential
  | _, 0 => .error ("Credentials not received for transfer " ++ transfer_id)
  | tick, fuel + 1 =>
      match lookupA (credsAt tick) transfer_id with
      | some c => .ok c
      | none => pollCredentials credsAt transfer_id (tick + 1) fuel

/-- SSEPullCredentialsReceiver.get_credentials (main.py lines 101-109):
for _ in range(timeout) poll once per second, else raise TimeoutError. -/
def get_credentials (credsAt : Nat → Dict Credential) (transfer_id : String)
    (timeout : Nat) : Except String Credential :=
  pollCredentials credsAt transfer_id 0 timeout

/-- Body sent to the DSS job endpoints: the job_request dict built from
the F1ToolRequest with an empty parameters dict (main.py lines
192-196 and 235-239, which build identical bodies). -/
structure JobRequestBody where
  building_id : String
  optimization_type : String
  deriving DecidableEq

/-- How a DSS job request authenticates: the mediated path sends a
Bearer access token, the direct path the static X-API-Key header. -/
inductive AuthHeader where
  | bearer : String → AuthHeader
  | xApiKey : String → AuthHeader
  deriving DecidableEq

/-- One outbound POST to a DSS job endpoint: target URL, JSON body,
auth header and the callback_url query parameter. -/
structure HttpCall where
  url : String
  body : JobRequestBody
  auth : AuthHeader
  callback_url : String
  deriving DecidableEq

/-- The callback address both invocation paths construct from the
requesting user (main.py lines 204-206 and 246-248, identical). -/
def mkCallbackUrl (user_id : String) : String :=
  "http://dashboard_api:8000/webhooks/dss-callback/" ++ user_id

/-- The mediated call issued by call_dss_f1_service_with_token
(main.py lines 209-216): DSS connector public API with bearer token. -/
def primaryJobCall (access_token : String) (req : F1ToolRequest) : HttpCall :=
  { url := "http://dss_connector:19291/api/f1/jobs",
    body := { building_id := req.building_id,
              optimization_type := req.optimization_type },
    auth := .bearer access_token,
    callback_url := mkCallbackUrl req.user_id }

/-- The direct call issued by call_dss_f1_service_direct (main.py lines
250-257): DSS mock API with the static dss-backend-key. -/
def directJobCall (req : F1ToolRequest) : HttpCall :=
  { url := "http://dss_mock_api:8000/f1/jobs",
    body := { building_id := req.building_id,
              optimization_type := req.optimization_type },
    auth := .xApiKey "dss-backend-key",
    callback_url := mkCallbackUrl req.user_id }

/-- call_dss_f1_service_direct (main.py lines 231-268).  respond maps
each outbound call to its outcome: ok with the job_id field of the
response body, or error for a transport error, non-2xx status or
malformed body.  Returns the list of calls issued and the result; an
error is re-raised to the caller. -/
def call_dss_f1_service_direct (respond : HttpCall → Except String String)
    (req : F1ToolRequest) : List HttpCall × Except String String :=
  ([directJobCall req], respond (directJobCall req))

/-- call_dss_f1_service_with_token (main.py lines 185-228): try the
mediated call; on any exception fall back to exactly one direct call
and return its outcome. -/
def call_dss_f1_service_with_token (respond : HttpCall → Except String String)
    (access_token : String) (req : F1ToolRequest) :
    List HttpCall × Except String String :=
  match respond (primaryJobCall access_token req) with
  | .ok job_id => ([primaryJobCall access_token req], .ok job_id)
  | .error _ =>
      let fb := call_dss_f1_service_direct respond req
      (primaryJobCall access_token req :: fb.1, fb.2)

/-- Python `a or b` on two optional strings, where None and the empty
string are falsy (used for credentials.get of authKey or of token). -/
def pyOrStr (a b : Option String) : Option String :=
  match a with
  | some s => if s = "" then b else some s
  | none => b

/-- Token extraction of run_edcpy_negotiation_and_transfer (main.py
lines 160-162): authKey or token, and raise when the result is falsy. -/
def extractAccessToken (c : Credential) : Except String String :=
  match pyOrStr c.authKey c.token with
  | some t => if t = "" then .error "No access token in received credentials" else .ok t
  | none => .error "No access token in received credentials"

/-- Environment of one run of run_edcpy_negotiation_and_transfer: the
outcomes of the two edcpy library stages (run_negotiation_flow and
run_transfer_flow, the latter yielding transfer_process_id), the SSE
credential store over time, and the responses of the DSS job
endpoints. -/
structure EdcEnv where
  negotiation : Except String String
  transfer : Except String String
  credsAt : Nat → Dict Credential
  respond : HttpCall → Except String String

/-- run_edcpy_negotiation_and_transfer (main.py lines 118-182):
negotiation, then transfer, then wait for the credential of the
obtained transfer id (default timeout 60), then extract the access
token and invoke the DSS F1 service.  Any stage error is re-raised. -/
def run_edcpy_negotiation_and_transfer (env : EdcEnv) (req : F1ToolRequest) :
    Except String String := do
  let _ ← env.negotiation
  let transfer_id ← env.transfer
  let creds ← get_credentials env.credsAt transfer_id 60
  let access_token ← extractAccessToken creds
  (call_dss_f1_service_with_token env.respond access_token req).2

/-- Python requests_storage[request_id][field] = v: KeyError (none)
when request_id is not a key of the outer dict. -/
def setField (storage : Registry) (request_id field : String) (v : Val) :
    Option Registry :=
  match lookupA storage request_id with
  | none => none
  | some r => some (setA storage request_id (setA r field v))

/-- process_f1_request (main.py lines 309-329): mark the record
processing_via_edcpy, run the edcpy workflow, then either record the
dss_job_id and mark dss_job_running, or catch the exception and record
status failed with the error message.  The function itself never
re-raises (its only none case is the KeyError on a missing record,
which the except clause would hit again at line 328). -/
def process_f1_request (storage : Registry) (request_id : String)
    (env : EdcEnv) (req : F1ToolRequest) : Option Registry := do
  let s1 ← setField storage request_id "status" (.str "processing_via_edcpy")
  match run_edcpy_negotiation_and_transfer env req with
  | .ok dss_job_id => do
      let s2 ← setField s1 request_id "dss_job_id" (.str dss_job_id)
      setField s2 request_id "status" (.str "dss_job_running")
  | .error e => do
      let s2 ← setField s1 request_id "status" (.str "failed")
      setField s2 request_id "error" (.str e)

/-- Outcome of one background run of run_edcpy_negotiation_and_transfer,
as it reaches the registry writes of process_f1_request: the returned
dss_job_id, or the caught exception message. -/
inductive WorkflowOutcome where
  | success : String → WorkflowOutcome
  | failure : String → WorkflowOutcome
  deriving DecidableEq

/-- The registry writes of process_f1_request after the awaited edcpy
call returns (main.py lines 319-320 on success, 328-329 on failure);
in each branch the two writes are consecutive statements with no await
between them, hence atomic under the asyncio event loop. -/
def applyOutcome (storage : Registry) (request_id : String)
    (o : WorkflowOutcome) : Option Registry :=
  match o with
  | .success j => do
      let s2 ← setField storage request_id "dss_job_id" (.str j)
      setField s2 request_id "status" (.str "dss_job_running")
  | .failure e => do
      let s2 ← setField storage request_id "status" (.str "failed")
      setField s2 request_id "error" (.str e)

/-- Atomic chunks of the interleaved executions of the dashboard
service, cut at the awaits of the asyncio event loop: admitting a
request (request_f1_tool, one synchronous handler), the first write of
its background task (line 313, before the awaited edcpy call), the
final writes of that task, and one webhook delivery (a synchronous
handler). -/
inductive Event where
  | admitEv : String → String → F1ToolRequest → Event
  | procStart : String → Event
  | procFinish : String → WorkflowOutcome → Event
  | webhook : String → CallbackData → String → Event
  deriving DecidableEq

/-- Progress of one background task, used to restrict interleavings to
those the event loop can produce: the task of a request is scheduled
at admission, runs its first chunk once, then its final chunk once. -/
inductive Phase where
  | created
  | started
  | finished
  deriving DecidableEq

/-- Full state of the dashboard service: the per-request task phases
(control state of the event loop) and requests_storage. -/
structure SysState where
  ctrl : Dict Phase
  storage : Registry

/-- Empty initial state: no requests admitted. -/
def initState : SysState := { ctrl := [], storage := [] }

/-- One atomic chunk.  none means the chunk is not enabled (the event
loop cannot run it now: duplicate admission id, task not in the right
phase) or the code would raise an uncaught exception there. -/
def step (s : SysState) : Event → Option SysState
  | .admitEv stamp created_at req =>
      let rid := mkRequestId stamp req.user_id
      match lookupA s.ctrl rid with
      | some _ => none
      | none =>
          some { ctrl := (rid, Phase.created) :: s.ctrl,
                 storage := s.storage ++ [(rid, createRecord rid created_at req)] }
  | .procStart rid =>
      match lookupA s.ctrl rid with
      | some Phase.created =>
          match setField s.storage rid "status" (.str "processing_via_edcpy") with
          | none => none
          | some st => some { ctrl := setA s.ctrl rid Phase.started, storage := st }
      | _ => none
  | .procFinish rid o =>
      match lookupA s.ctrl rid with
      | some Phase.started =>
          match applyOutcome s.storage rid o with
          | none => none
          | some st => some { ctrl := setA s.ctrl rid Phase.finished, storage := st }
      | _ => none
  | .webhook user_id cb now =>
      match dss_webhook_callback s.storage user_id cb now with
      | none => none
      | some (st, _) => some { ctrl := s.ctrl, storage := st }

/-- Run a list of events, collecting the state after each event. -/
def runEvents (s : SysState) : List Event → Option (List SysState)
  | [] => some []
  | e :: es => do
      let s2 ← step s e
      let rest ← runEvents s2 es
      some (s2 :: rest)

/-- The status field of the record of one request, when the record
exists and its status is a string (it always is in reachable states). -/
def statusOf (storage : Registry) (rid : String) : Option String :=
  match lookupA storage rid with
  | none => none
  | some r =>
      match lookupA r "status" with
      | some (.str st) => some st
      | _ => none

/-- The sequence of statuses of one request observed after each event
of an execution. -/
def statusTrace (states : List SysState) (rid : String) : List String :=
  states.filterMap (fun s => statusOf s.storage rid)

/-- The state set claimed by the specification. -/
def claimedStates : List String :=
  ["initiated", "negotiating", "transfer_initiating", "awaiting_credential",
   "invoking", "job_running", "completed", "failed"]

/-- The state set the code actually writes into requests_storage. -/
def actualStates : List String :=
  ["initiated", "processing_via_edcpy", "dss_job_running", "completed", "failed"]

/-- Position of each actual status along the workflow order. -/
def statusRank : String → Nat
  | "initiated" => 0
  | "processing_via_edcpy" => 1
  | "dss_job_running" => 2
  | "completed" => 3
  | "failed" => 4
  | _ => 5

/-- Order on observed statuses: non-decreasing rank, and the two
terminal statuses absorb (nothing follows completed but completed,
nothing follows failed but failed). -/
def statusLe (s t : String) : Prop :=
  statusRank s ≤ statusRank t ∧
    (s = "completed" → t = "completed") ∧ (s = "failed" → t = "failed")

/-- An event whose webhook body carries a job_id value (the DSS mock
always sends one, src/dss-api/main.py lines 108-112); non-webhook
events satisfy this vacuously. -/
def cbHasJobId : Event → Prop
  | .webhook _ cb _ => cb.job_id ≠ none
  | _ => True

instance : DecidablePred cbHasJobId := by
  intro e
  cases e <;> simp [cbHasJobId] <;> infer_instance

/-- One record of jobs_storage in src/dss-api/main.py. -/
abbrev Job := Dict Val

/-- jobs_storage: Dict[str, Dict[str, Any]], keyed by job_id. -/
abbrev JobStorage := Dict Job

/-- get_api_key (src/dss-api/main.py lines 29-39).  expected is
os.getenv of BACKEND_API_KEY (none when unset); api_key is the value of
the X-API-Key header (none when the header is missing, auto_error is
False).  Python truthiness: the check only runs when expected is
neither None nor the empty string. -/
def get_api_key (expected api_key : Option String) :
    Except (Nat × String) (Option String) :=
  match expected with
  | none => .ok api_key
  | some e =>
      if e ≠ "" ∧ api_key ≠ some e then .error (401, "Invalid API key")
      else .ok api_key

/-- GET /f1/jobs (src/dss-api/main.py lines 189-193): auth gate, then
the list of stored job records. -/
def list_jobs (storage : JobStorage) (expected api_key : Option String) :
    Except (Nat × String) (List Job) :=
  match get_api_key expected api_key with
  | .error err => .error err
  | .ok _ => .ok (storage.map Prod.snd)

/-- DELETE /f1/jobs (cancel_job, src/dss-api/main.py lines 196-216):
auth gate; 404 when the job_id is not stored; 400 and no change when
the stored status is completed or failed; otherwise set the status to
cancelled.  none models the uncaught KeyError when a stored job has no
status key (never the case for jobs created by create_f1_job). -/
def cancel_job (storage : JobStorage) (job_id : String)
    (expected api_key : Option String) :
    Option (Except (Nat × String) String × JobStorage) :=
  match get_api_key expected api_key with
  | .error err => some (.error err, storage)
  | .ok _ =>
      match lookupA storage job_id with
      | none => some (.error (404, "Job not found"), storage)
      | some job =>
          match lookupA job "status" with
          | none => none
          | some v =>
              if v = .str "completed" ∨ v = .str "failed" then
                some (.error (400, "Cannot cancel completed or failed job"), storage)
              else
                some (.ok ("Job " ++ job_id ++ " cancelled"),
                  setA storage job_id (setA job "status" (.str "cancelled")))

/-- The request of the concrete scenario in the specification. -/
def sampleReq : F1ToolRequest :=
  { building_id := "building_001", optimization_type := "energy_efficiency",
    user_id := "u1", callback_url := none }

/-- A fixed admission stamp in the %Y%m%d_%H%M%S format. -/
def sampleStamp : String := "20260101_120000"

/-- The request_id generated for sampleReq at sampleStamp. -/
def sampleRid : String := mkRequestId sampleStamp sampleReq.user_id

/-- Environment realizing the concrete scenario of the specification:
negotiation finalized with agreement agr-1, transfer started with
transfer id tr-1, credential for tr-1 present with authKey tok-1, and
the job endpoints answering with job id job-1. -/
def sampleEnv : EdcEnv :=
  { negotiation := .ok "agr-1",
    transfer := .ok "tr-1",
    credsAt := fun _ => [("tr-1", { authKey := some "tok-1", token := none })],
    respond := fun _ => .ok "job-1" }

/-- A callback body matching job-1 with an opaque result payload. -/
def sampleCb : CallbackData := { job_id := some (.str "job-1"), result := some (.payload 7) }

/-- The happy-path execution of the concrete scenario: admit, start the
background task, finish it with job-1, then deliver the completion
webhook for u1. -/
def demoEvents : List Event :=
  [.admitEv sampleStamp "T0" sampleReq,
   .procStart sampleRid,
   .procFinish sampleRid (.success "job-1"),
   .webhook "u1" sampleCb "T2"]

/-- Invariant tying the record of a request to the phase of its
background task: the record always carries a string user_id, its status
is determined by the phase, and dss_job_id is populated exactly from
the successful finish on. -/
def recordInv : Phase → Record → Prop
  | .created, r =>
      (∃ u, lookupA r "user_id" = some (.str u)) ∧
      lookupA r "status" = some (.str "initiated") ∧
      lookupA r "dss_job_id" = none
  | .started, r =>
      (∃ u, lookupA r "user_id" = some (.str u)) ∧
      lookupA r "status" = some (.str "processing_via_edcpy") ∧
      lookupA r "dss_job_id" = none
  | .finished, r =>
      (∃ u, lookupA r "user_id" = some (.str u)) ∧
      ((lookupA r "status" = some (.str "failed") ∧ lookupA r "dss_job_id" = none) ∨
       ((lookupA r "status" = some (.str "dss_job_running") ∨
         lookupA r "status" = some (.str "completed")) ∧
        ∃ j, lookupA r "dss_job_id" = some (.str j)))

/-- System invariant: storage and task control state track each other,
and every tracked record satisfies the invariant of its phase. -/
def SysInv (s : SysState) : Prop :=
  ∀ rid, (lookupA s.ctrl rid = none → lookupA s.storage rid = none) ∧
    (∀ ph, lookupA s.ctrl rid = some ph →
      ∃ r, lookupA s.storage rid = some r ∧ recordInv ph r)

/-- How the observed status of one request may change across a single
atomic chunk: appear as initiated, or move along statusLe into the
actual state set. -/
def statusStep (o o2 : Option String) : Prop :=
  (o = none → o2 = none ∨ o2 = some "initiated") ∧
  (∀ st, o = some st → ∃ t, o2 = some t ∧ statusLe st t ∧ t ∈ actualStates)

/-- A status sequence is good after having last observed o: every
element is an actual status and follows its predecessor along
statusLe. -/
def GoodFrom : Option String → List String → Prop
  | _, [] => True
  | o, t :: rest =>
      t ∈ actualStates ∧ (∀ st, o = some st → statusLe st t) ∧ GoodFrom (some t) rest

instance (s t : String) : Decidable (statusLe s t) := by
  unfold statusLe
  infer_instance

/-- A short execution reaching the processing_via_edcpy status: admit
the sample request and run the first chunk of its background task. -/
def c1Events : List Event :=
  [.admitEv sampleStamp "T0" sampleReq, .procStart sampleRid]

/-- One webhook delivery for user u1 with the sample callback body, at
the given time; the registry after the call (identity when the model
would raise). -/
def whOnce (reg : Registry) (now : String) : Registry :=
  ((dss_webhook_callback reg "u1" sampleCb now).getD (reg, false)).1

/-- The record of the sample request right after its background task
finished successfully with job-1 (the two writes of main.py lines
319-320 applied to the created record). -/
def c5Record : Record :=
  setA (setA (createRecord sampleRid "T0" sampleReq) "dss_job_id" (.str "job-1"))
    "status" (.str "dss_job_running")

/-- A registry holding just the finished sample request. -/
def c5Registry : Registry := [(sampleRid, c5Record)]

/-- A callback body for a job id matching no record. -/
def cbOther : CallbackData := { job_id := some (.str "nope"), result := none }

/-- An environment whose negotiation stage fails outright. -/
def c8Env : EdcEnv :=
  { negotiation := .error "EDC negotiation and transfer failed",
    transfer := .ok "tr-1",
    credsAt := fun _ => [],
    respond := fun _ => .error "down" }

/-- Responses making the mediated path fail and the direct path
succeed: bearer-authenticated calls error, X-API-Key calls return a
job id. -/
def c7Respond : HttpCall → Except String String :=
  fun c =>
    match c.auth with
    | .bearer _ => .error "connector down"
    | .xApiKey _ => .ok "job-direct-1"

/-- The registry produced by admitting the sample request and running
its background workflow in the sample environment. -/
def c3Processed : Option Registry :=
  process_f1_request (request_f1_tool [] sampleStamp "T0" sampleReq).1 sampleRid
    sampleEnv sampleReq

/-- A DSS job storage with one completed and one running job. -/
def c10Storage : JobStorage :=
  [("j1", [("job_id", .str "j1"), ("status", .str "completed")]),
   ("j2", [("job_id", .str "j2"), ("status", .str "running")])]

end DssSeq

namespace DssSeq

theorem lookupA_setA_self {α : Type} (l : Dict α) (k : String) (v : α) :
    lookupA (setA l k v) k = some v := by
  induction l with
  | nil => simp [setA, lookupA]
  | cons p rest ih =>
      by_cases h : p.1 = k
      · simp [setA, h, lookupA]
      · simp [setA, h, lookupA, ih]

theorem lookupA_setA_ne {α : Type} (l : Dict α) {k k2 : String} (v : α)
    (h : k2 ≠ k) : lookupA (setA l k v) k2 = lookupA l k2 := by
  have h' : ¬ k = k2 := fun hh => h hh.symm
  induction l with
  | nil => simp [setA, lookupA, h']
  | cons p rest ih =>
      by_cases hp : p.1 = k
      · have hpk2 : ¬ p.1 = k2 := by rw [hp]; exact h'
        simp [setA, hp, lookupA, h', hpk2]
      · by_cases hp2 : p.1 = k2
        · simp [setA, hp, lookupA, hp2, h]
        · simp [setA, hp, lookupA, hp2, ih]

theorem lookupA_append {α : Type} (l1 l2 : Dict α) (k : String) :
    lookupA (l1 ++ l2) k =
      match lookupA l1 k with
      | some v => some v
      | none => lookupA l2 k := by
  induction l1 with
  | nil => simp [lookupA]
  | cons p rest ih =>
      by_cases h : p.1 = k
      · simp [lookupA, h]
      · simp [lookupA, h, ih]

theorem setField_of_lookup {storage : Registry} {rid : String} {r : Record}
    (h : lookupA storage rid = some r) (f : String) (v : Val) :
    setField storage rid f v = some (setA storage rid (setA r f v)) := by
  simp [setField, h]

theorem lookupA_completeRecord_status (r : Record) (cb : CallbackData) (now : String) :
    lookupA (completeRecord r cb now) "status" = some (.str "completed") := by
  simp [completeRecord, lookupA_setA_self, lookupA_setA_ne]

theorem lookupA_completeRecord_user (r : Record) (cb : CallbackData) (now : String) :
    lookupA (completeRecord r cb now) "user_id" = lookupA r "user_id" := by
  simp [completeRecord, lookupA_setA_ne]

theorem lookupA_completeRecord_job (r : Record) (cb : CallbackData) (now : String) :
    lookupA (completeRecord r cb now) "dss_job_id" = lookupA r "dss_job_id" := by
  simp [completeRecord, lookupA_setA_ne]

theorem lookupA_completeRecord_at (r : Record) (cb : CallbackData) (now : String) :
    lookupA (completeRecord r cb now) "completed_at" = some (.str now) := by
  simp [completeRecord, lookupA_setA_self]

theorem lookupA_completeRecord_result (r : Record) (cb : CallbackData) (now : String) :
    lookupA (completeRecord r cb now) "dss_result" = some (cb.result.getD (.payload 0)) := by
  simp [completeRecord, lookupA_setA_self, lookupA_setA_ne]

theorem createRecord_user (rid c : String) (req : F1ToolRequest) :
    lookupA (createRecord rid c req) "user_id" = some (.str req.user_id) := by
  simp [createRecord, lookupA]

theorem createRecord_status (rid c : String) (req : F1ToolRequest) :
    lookupA (createRecord rid c req) "status" = some (.str "initiated") := by
  simp [createRecord, lookupA]

theorem createRecord_job (rid c : String) (req : F1ToolRequest) :
    lookupA (createRecord rid c req) "dss_job_id" = none := by
  simp [createRecord, lookupA]

theorem scanRecords_nomatch {u : String} {cb : CallbackData} {now : String}
    {l : Registry} (h : ∀ p ∈ l, webhookMatch p.2 u cb = some false) :
    scanRecords u cb now l = some (l, false) := by
  induction l with
  | nil => simp [scanRecords]
  | cons p rest ih =>
      have hp := h p (by simp)
      have hr : ∀ q ∈ rest, webhookMatch q.2 u cb = some false := by
        intro q hq
        exact h q (by simp [hq])
      simp [scanRecords, hp, ih hr]

theorem scanRecords_break {u : String} {cb : CallbackData} {now : String}
    {pre post : Registry} {rid : String} {r : Record}
    (hpre : ∀ p ∈ pre, webhookMatch p.2 u cb = some false)
    (hr : webhookMatch r u cb = some true) :
    scanRecords u cb now (pre ++ (rid, r) :: post) =
      some (pre ++ (rid, completeRecord r cb now) :: post, true) := by
  induction pre with
  | nil => simp [scanRecords, hr]
  | cons p rest ih =>
      have hp := hpre p (by simp)
      have hrest : ∀ q ∈ rest, webhookMatch q.2 u cb = some false := by
        intro q hq
        exact hpre q (by simp [hq])
      simp [scanRecords, hp, ih hrest]

theorem scanRecords_lookup {u : String} {cb : CallbackData} {now : String} :
    ∀ {l out : Registry} {m : Bool}, scanRecords u cb now l = some (out, m) →
    ∀ k, (lookupA l k = none ∧ lookupA out k = none) ∨
      (∃ r, lookupA l k = some r ∧
        (lookupA out k = some r ∨
         (webhookMatch r u cb = some true ∧
          lookupA out k = some (completeRecord r cb now)))) := by
  intro l
  induction l with
  | nil =>
      intro out m h k
      simp [scanRecords] at h
      simp [h.1, lookupA]
  | cons p rest ih =>
      intro out m h k
      match hm : webhookMatch p.2 u cb with
      | none => simp [scanRecords, hm] at h
      | some true =>
          simp [scanRecords, hm] at h
          by_cases hk : p.1 = k
          · right
            exact ⟨p.2, by simp [lookupA, hk], Or.inr ⟨hm, by simp [← h.1, lookupA, hk]⟩⟩
          · have : lookupA out k = lookupA rest k := by
              simp [← h.1, lookupA, hk]
            rw [this]
            match hrk : lookupA rest k with
            | none => exact Or.inl ⟨by simp [lookupA, hk, hrk], rfl⟩
            | some r => exact Or.inr ⟨r, by simp [lookupA, hk, hrk], Or.inl rfl⟩
      | some false =>
          simp only [scanRecords, hm] at h
          match hs : scanRecords u cb now rest with
          | none => simp [hs] at h
          | some (rest2, m2) =>
              simp [hs] at h
              by_cases hk : p.1 = k
              · right
                exact ⟨p.2, by simp [lookupA, hk], Or.inl (by simp [← h.1, lookupA, hk])⟩
              · have hout : lookupA out k = lookupA rest2 k := by
                  simp [← h.1, lookupA, hk]
                have hin : lookupA (p :: rest) k = lookupA rest k := by
                  simp [lookupA, hk]
                rw [hout, hin]
                exact ih hs k

theorem statusLe_refl (s : String) : statusLe s s :=
  ⟨le_refl _, fun h => h, fun h => h⟩

theorem webhookMatch_true {r : Record} {u : String} {cb : CallbackData}
    (h : webhookMatch r u cb = some true) :
    lookupA r "user_id" = some (.str u) ∧ lookupA r "dss_job_id" = cb.job_id := by
  unfold webhookMatch at h
  cases hl : lookupA r "user_id" with
  | none => rw [hl] at h; simp at h
  | some v =>
      rw [hl] at h
      simp only [Option.some.injEq, Bool.and_eq_true, decide_eq_true_eq] at h
      exact ⟨congrArg some h.1, h.2⟩

theorem statusOf_some {storage : Registry} {rid : String} {r : Record} {st : String}
    (hr : lookupA storage rid = some r) (hs : lookupA r "status" = some (.str st)) :
    statusOf storage rid = some st := by
  simp [statusOf, hr, hs]

theorem statusOf_none {storage : Registry} {rid : String}
    (hr : lookupA storage rid = none) : statusOf storage rid = none := by
  simp [statusOf, hr]

theorem statusOf_mem {s : SysState} {rid : String} {st : String}
    (hInv : SysInv s) (h : statusOf s.storage rid = some st) :
    st ∈ actualStates := by
  cases hr : lookupA s.storage rid with
  | none =>
      rw [statusOf_none hr] at h
      simp at h
  | some r =>
      cases hc : lookupA s.ctrl rid with
      | none =>
          rw [(hInv rid).1 hc] at hr
          simp at hr
      | some ph =>
          obtain ⟨r2, hr2, hri⟩ := (hInv rid).2 ph hc
          rw [hr] at hr2
          injection hr2 with he
          subst he
          cases ph with
          | created =>
              rw [statusOf_some hr hri.2.1] at h
              injection h with he2
              simp [actualStates, ← he2]
          | started =>
              rw [statusOf_some hr hri.2.1] at h
              injection h with he2
              simp [actualStates, ← he2]
          | finished =>
              rcases hri.2 with ⟨hst, _⟩ | ⟨hst, _⟩
              · rw [statusOf_some hr hst] at h
                injection h with he2
                simp [actualStates, ← he2]
              · rcases hst with hst | hst
                · rw [statusOf_some hr hst] at h
                  injection h with he2
                  simp [actualStates, ← he2]
                · rw [statusOf_some hr hst] at h
                  injection h with he2
                  simp [actualStates, ← he2]

theorem statusStep_of_eq {s s2 : SysState} {rid : String} (hInv : SysInv s)
    (heq : statusOf s2.storage rid = statusOf s.storage rid) :
    statusStep (statusOf s.storage rid) (statusOf s2.storage rid) := by
  constructor
  · intro h0
    rw [heq, h0]
    exact Or.inl rfl
  · intro st hst
    exact ⟨st, by rw [heq, hst], statusLe_refl st, statusOf_mem hInv hst⟩

theorem sysInv_init : SysInv initState := by
  intro rid
  constructor
  · intro
    rfl
  · intro ph hph
    simp [initState, lookupA] at hph

theorem step_preserves {s : SysState} {e : Event} {s2 : SysState}
    (hInv : SysInv s) (hcb : cbHasJobId e) (hstep : step s e = some s2) :
    SysInv s2 ∧ ∀ rid, statusStep (statusOf s.storage rid) (statusOf s2.storage rid) := by
  cases e with
  | admitEv stamp c req =>
      simp only [step] at hstep
      cases hc : lookupA s.ctrl (mkRequestId stamp req.user_id) with
      | some ph => rw [hc] at hstep; simp at hstep
      | none =>
          rw [hc] at hstep
          simp only [Option.some.injEq] at hstep
          subst hstep
          have hstor0 : lookupA s.storage (mkRequestId stamp req.user_id) = none :=
            (hInv _).1 hc
          have hself : lookupA
              (s.storage ++ [(mkRequestId stamp req.user_id,
                createRecord (mkRequestId stamp req.user_id) c req)])
              (mkRequestId stamp req.user_id) =
              some (createRecord (mkRequestId stamp req.user_id) c req) := by
            rw [lookupA_append, hstor0]
            simp [lookupA]
          have hother : ∀ rid, ¬ mkRequestId stamp req.user_id = rid →
              lookupA (s.storage ++ [(mkRequestId stamp req.user_id,
                createRecord (mkRequestId stamp req.user_id) c req)]) rid =
              lookupA s.storage rid := by
            intro rid hne
            rw [lookupA_append]
            cases lookupA s.storage rid <;> simp [lookupA, hne]
          constructor
          · intro rid
            by_cases hr : mkRequestId stamp req.user_id = rid
            · subst hr
              constructor
              · intro habs
                simp [lookupA] at habs
              · intro ph hph
                simp [lookupA] at hph
                subst hph
                exact ⟨createRecord (mkRequestId stamp req.user_id) c req, hself,
                  ⟨req.user_id, createRecord_user _ _ _⟩,
                  createRecord_status _ _ _, createRecord_job _ _ _⟩
            · have hcl : lookupA ((mkRequestId stamp req.user_id, Phase.created) :: s.ctrl)
                  rid = lookupA s.ctrl rid := by
                simp [lookupA, hr]
              constructor
              · intro hnone
                rw [hcl] at hnone
                rw [hother rid hr]
                exact (hInv rid).1 hnone
              · intro ph hph
                rw [hcl] at hph
                rw [hother rid hr]
                exact (hInv rid).2 ph hph
          · intro rid
            by_cases hr : mkRequestId stamp req.user_id = rid
            · subst hr
              have ho : statusOf s.storage (mkRequestId stamp req.user_id) = none :=
                statusOf_none hstor0
              have ho2 := statusOf_some hself (createRecord_status
                (mkRequestId stamp req.user_id) c req)
              refine ⟨fun _ => Or.inr ho2, fun st hst => ?_⟩
              rw [ho] at hst
              simp at hst
            · have heq : statusOf (s.storage ++ [(mkRequestId stamp req.user_id,
                  createRecord (mkRequestId stamp req.user_id) c req)]) rid =
                  statusOf s.storage rid := by
                unfold statusOf
                rw [hother rid hr]
              exact statusStep_of_eq hInv heq
  | procStart rid0 =>
      simp only [step] at hstep
      cases hc : lookupA s.ctrl rid0 with
      | none => rw [hc] at hstep; simp at hstep
      | some ph =>
          cases ph with
          | started => rw [hc] at hstep; simp at hstep
          | finished => rw [hc] at hstep; simp at hstep
          | created =>
              rw [hc] at hstep
              obtain ⟨r, hrl, hri⟩ := (hInv rid0).2 _ hc
              obtain ⟨⟨u, hu⟩, hst, hjob⟩ := hri
              rw [setField_of_lookup hrl] at hstep
              simp only [Option.some.injEq] at hstep
              subst hstep
              constructor
              · intro rid
                by_cases hr : rid = rid0
                · subst hr
                  constructor
                  · intro habs
                    rw [lookupA_setA_self] at habs
                    simp at habs
                  · intro ph2 hph2
                    rw [lookupA_setA_self] at hph2
                    injection hph2 with he
                    subst he
                    refine ⟨setA r "status" (.str "processing_via_edcpy"),
                      lookupA_setA_self _ _ _, ⟨u, ?_⟩, lookupA_setA_self _ _ _, ?_⟩
                    · rw [lookupA_setA_ne _ _ (by decide)]
                      exact hu
                    · rw [lookupA_setA_ne _ _ (by decide)]
                      exact hjob
                · constructor
                  · intro hnone
                    rw [lookupA_setA_ne _ _ hr] at hnone
                    rw [lookupA_setA_ne _ _ hr]
                    exact (hInv rid).1 hnone
                  · intro ph2 hph2
                    rw [lookupA_setA_ne _ _ hr] at hph2
                    rw [lookupA_setA_ne _ _ hr]
                    exact (hInv rid).2 ph2 hph2
              · intro rid
                by_cases hr : rid = rid0
                · subst hr
                  have ho : statusOf s.storage rid = some "initiated" :=
                    statusOf_some hrl hst
                  have ho2 : statusOf (setA s.storage rid
                      (setA r "status" (.str "processing_via_edcpy"))) rid =
                      some "processing_via_edcpy" :=
                    statusOf_some (lookupA_setA_self _ _ _) (lookupA_setA_self _ _ _)
                  refine ⟨fun h0 => ?_, fun st2 hst2 => ?_⟩
                  · rw [ho] at h0
                    simp at h0
                  · rw [ho] at hst2
                    injection hst2 with he
                    subst he
                    exact ⟨"processing_via_edcpy", ho2, by decide, by decide⟩
                · have heq : statusOf (setA s.storage rid0
                      (setA r "status" (.str "processing_via_edcpy"))) rid =
                      statusOf s.storage rid := by
                    unfold statusOf
                    rw [lookupA_setA_ne _ _ hr]
                  exact statusStep_of_eq hInv heq
  | procFinish rid0 o =>
      simp only [step] at hstep
      cases hc : lookupA s.ctrl rid0 with
      | none => rw [hc] at hstep; simp at hstep
      | some ph =>
          cases ph with
          | created => rw [hc] at hstep; simp at hstep
          | finished => rw [hc] at hstep; simp at hstep
          | started =>
              rw [hc] at hstep
              obtain ⟨r, hrl, hri⟩ := (hInv rid0).2 _ hc
              obtain ⟨⟨u, hu⟩, hst, hjob⟩ := hri
              cases o with
              | success j =>
                  simp only [applyOutcome] at hstep
                  rw [setField_of_lookup hrl] at hstep
                  simp only [Option.bind_eq_bind, Option.some_bind] at hstep
                  rw [setField_of_lookup (lookupA_setA_self s.storage rid0
                    (setA r "dss_job_id" (.str j)))] at hstep
                  simp only [Option.some.injEq] at hstep
                  subst hstep
                  have hrec_self : lookupA (setA (setA s.storage rid0
                      (setA r "dss_job_id" (.str j))) rid0
                      (setA (setA r "dss_job_id" (.str j)) "status"
                        (.str "dss_job_running"))) rid0 =
                      some (setA (setA r "dss_job_id" (.str j)) "status"
                        (.str "dss_job_running")) :=
                    lookupA_setA_self _ _ _
                  have hrec_other : ∀ rid, ¬ rid = rid0 →
                      lookupA (setA (setA s.storage rid0
                        (setA r "dss_job_id" (.str j))) rid0
                        (setA (setA r "dss_job_id" (.str j)) "status"
                          (.str "dss_job_running"))) rid = lookupA s.storage rid := by
                    intro rid hne
                    rw [lookupA_setA_ne _ _ hne, lookupA_setA_ne _ _ hne]
                  constructor
                  · intro rid
                    by_cases hr : rid = rid0
                    · subst hr
                      constructor
                      · intro habs
                        rw [lookupA_setA_self] at habs
                        simp at habs
                      · intro ph2 hph2
                        rw [lookupA_setA_self] at hph2
                        injection hph2 with he
                        subst he
                        refine ⟨_, hrec_self, ⟨u, ?_⟩, Or.inr ⟨Or.inl
                          (lookupA_setA_self _ _ _), j, ?_⟩⟩
                        · rw [lookupA_setA_ne _ _ (by decide),
                            lookupA_setA_ne _ _ (by decide)]
                          exact hu
                        · rw [lookupA_setA_ne _ _ (by decide)]
                          exact lookupA_setA_self _ _ _
                    · constructor
                      · intro hnone
                        rw [lookupA_setA_ne _ _ hr] at hnone
                        rw [hrec_other rid hr]
                        exact (hInv rid).1 hnone
                      · intro ph2 hph2
                        rw [lookupA_setA_ne _ _ hr] at hph2
                        rw [hrec_other rid hr]
                        exact (hInv rid).2 ph2 hph2
                  · intro rid
                    by_cases hr : rid = rid0
                    · subst hr
                      have ho : statusOf s.storage rid = some "processing_via_edcpy" :=
                        statusOf_some hrl hst
                      have ho2 := statusOf_some hrec_self
                        (lookupA_setA_self (setA r "dss_job_id" (.str j)) "status"
                          (Val.str "dss_job_running"))
                      refine ⟨fun h0 => ?_, fun st2 hst2 => ?_⟩
                      · rw [ho] at h0
                        simp at h0
                      · rw [ho] at hst2
                        injection hst2 with he
                        subst he
                        exact ⟨"dss_job_running", ho2, by decide, by decide⟩
                    · have heq : statusOf (setA (setA s.storage rid0
                          (setA r "dss_job_id" (.str j))) rid0
                          (setA (setA r "dss_job_id" (.str j)) "status"
                            (.str "dss_job_running"))) rid = statusOf s.storage rid := by
                        unfold statusOf
                        rw [hrec_other rid hr]
                      exact statusStep_of_eq hInv heq
              | failure err =>
                  simp only [applyOutcome] at hstep
                  rw [setField_of_lookup hrl] at hstep
                  simp only [Option.bind_eq_bind, Option.some_bind] at hstep
                  rw [setField_of_lookup (lookupA_setA_self s.storage rid0
                    (setA r "status" (.str "failed")))] at hstep
                  simp only [Option.some.injEq] at hstep
                  subst hstep
                  have hrec_self : lookupA (setA (setA s.storage rid0
                      (setA r "status" (.str "failed"))) rid0
                      (setA (setA r "status" (.str "failed")) "error" (.str err))) rid0 =
                      some (setA (setA r "status" (.str "failed")) "error" (.str err)) :=
                    lookupA_setA_self _ _ _
                  have hrec_other : ∀ rid, ¬ rid = rid0 →
                      lookupA (setA (setA s.storage rid0
                        (setA r "status" (.str "failed"))) rid0
                        (setA (setA r "status" (.str "failed")) "error" (.str err)))
                        rid = lookupA s.storage rid := by
                    intro rid hne
                    rw [lookupA_setA_ne _ _ hne, lookupA_setA_ne _ _ hne]
                  have hnewstat : lookupA (setA (setA r "status" (.str "failed"))
                      "error" (.str err)) "status" = some (.str "failed") := by
                    rw [lookupA_setA_ne _ _ (by decide)]
                    exact lookupA_setA_self _ _ _
                  constructor
                  · intro rid
                    by_cases hr : rid = rid0
                    · subst hr
                      constructor
                      · intro habs
                        rw [lookupA_setA_self] at habs
                        simp at habs
                      · intro ph2 hph2
                        rw [lookupA_setA_self] at hph2
                        injection hph2 with he
                        subst he
                        refine ⟨_, hrec_self, ⟨u, ?_⟩, Or.inl ⟨hnewstat, ?_⟩⟩
                        · rw [lookupA_setA_ne _ _ (by decide),
                            lookupA_setA_ne _ _ (by decide)]
                          exact hu
                        · rw [lookupA_setA_ne _ _ (by decide),
                            lookupA_setA_ne _ _ (by decide)]
                          exact hjob
                    · constructor
                      · intro hnone
                        rw [lookupA_setA_ne _ _ hr] at hnone
                        rw [hrec_other rid hr]
                        exact (hInv rid).1 hnone
                      · intro ph2 hph2
                        rw [lookupA_setA_ne _ _ hr] at hph2
                        rw [hrec_other rid hr]
                        exact (hInv rid).2 ph2 hph2
                  · intro rid
                    by_cases hr : rid = rid0
                    · subst hr
                      have ho : statusOf s.storage rid = some "processing_via_edcpy" :=
                        statusOf_some hrl hst
                      have ho2 := statusOf_some hrec_self hnewstat
                      refine ⟨fun h0 => ?_, fun st2 hst2 => ?_⟩
                      · rw [ho] at h0
                        simp at h0
                      · rw [ho] at hst2
                        injection hst2 with he
                        subst he
                        exact ⟨"failed", ho2, by decide, by decide⟩
                    · have heq : statusOf (setA (setA s.storage rid0
                          (setA r "status" (.str "failed"))) rid0
                          (setA (setA r "status" (.str "failed")) "error" (.str err)))
                          rid = statusOf s.storage rid := by
                        unfold statusOf
                        rw [hrec_other rid hr]
                      exact statusStep_of_eq hInv heq
  | webhook u cb now =>
      simp only [step] at hstep
      cases hwb : dss_webhook_callback s.storage u cb now with
      | none => rw [hwb] at hstep; simp at hstep
      | some p =>
          obtain ⟨st, m⟩ := p
          rw [hwb] at hstep
          simp only [Option.some.injEq] at hstep
          subst hstep
          have hjid : cb.job_id ≠ none := hcb
          have hscan := @scanRecords_lookup u cb now s.storage st m hwb
          constructor
          · intro rid
            constructor
            · intro hnone
              have hsn := (hInv rid).1 hnone
              rcases hscan rid with ⟨_, h2⟩ | ⟨r, hr1, _⟩
              · exact h2
              · rw [hsn] at hr1
                simp at hr1
            · intro ph hph
              obtain ⟨r, hrl, hri⟩ := (hInv rid).2 ph hph
              rcases hscan rid with ⟨h1, _⟩ | ⟨r2, hr1, hcase⟩
              · rw [hrl] at h1
                simp at h1
              · rw [hrl] at hr1
                injection hr1 with he
                subst he
                rcases hcase with heq | ⟨hmatch, hout⟩
                · exact ⟨r, heq, hri⟩
                · obtain ⟨hmu, hmj⟩ := webhookMatch_true hmatch
                  cases hjv : cb.job_id with
                  | none => exact absurd hjv hjid
                  | some jv =>
                      rw [hjv] at hmj
                      cases ph with
                      | created =>
                          rw [hri.2.2] at hmj
                          simp at hmj
                      | started =>
                          rw [hri.2.2] at hmj
                          simp at hmj
                      | finished =>
                          rcases hri.2 with ⟨_, hnone2⟩ | ⟨_, jj, hjj⟩
                          · rw [hnone2] at hmj
                            simp at hmj
                          · refine ⟨completeRecord r cb now, hout,
                              ⟨u, by rw [lookupA_completeRecord_user]; exact hmu⟩,
                              Or.inr ⟨Or.inr (lookupA_completeRecord_status _ _ _),
                                jj, by rw [lookupA_completeRecord_job]; exact hjj⟩⟩
          · intro rid
            rcases hscan rid with ⟨h1, h2⟩ | ⟨r, hr1, hcase⟩
            · exact statusStep_of_eq hInv (by rw [statusOf_none h1, statusOf_none h2])
            · rcases hcase with heq | ⟨hmatch, hout⟩
              · have heq2 : statusOf st rid = statusOf s.storage rid := by
                  unfold statusOf
                  rw [hr1, heq]
                exact statusStep_of_eq hInv heq2
              · obtain ⟨hmu, hmj⟩ := webhookMatch_true hmatch
                cases hc2 : lookupA s.ctrl rid with
                | none =>
                    rw [(hInv rid).1 hc2] at hr1
                    simp at hr1
                | some ph =>
                    obtain ⟨r2, hrl2, hri⟩ := (hInv rid).2 ph hc2
                    rw [hr1] at hrl2
                    injection hrl2 with he
                    subst he
                    cases hjv : cb.job_id with
                    | none => exact absurd hjv hcb
                    | some jv =>
                        rw [hjv] at hmj
                        have ho2 : statusOf st rid = some "completed" :=
                          statusOf_some hout (lookupA_completeRecord_status _ _ _)
                        cases ph with
                        | created =>
                            rw [hri.2.2] at hmj
                            simp at hmj
                        | started =>
                            rw [hri.2.2] at hmj
                            simp at hmj
                        | finished =>
                            rcases hri.2 with ⟨_, hnone2⟩ | ⟨hstat, _, _⟩
                            · rw [hnone2] at hmj
                              simp at hmj
                            · rcases hstat with hstat | hstat
                              · have ho : statusOf s.storage rid =
                                    some "dss_job_running" := statusOf_some hr1 hstat
                                refine ⟨fun h0 => ?_, fun st2 hst2 => ?_⟩
                                · rw [ho] at h0
                                  simp at h0
                                · rw [ho] at hst2
                                  injection hst2 with he2
                                  subst he2
                                  exact ⟨"completed", ho2, by decide, by decide⟩
                              · have ho : statusOf s.storage rid = some "completed" :=
                                    statusOf_some hr1 hstat
                                refine ⟨fun h0 => ?_, fun st2 hst2 => ?_⟩
                                · rw [ho] at h0
                                  simp at h0
                                · rw [ho] at hst2
                                  injection hst2 with he2
                                  subst he2
                                  exact ⟨"completed", ho2, by decide, by decide⟩

theorem runEvents_good : ∀ (evs : List Event) (s : SysState)
    (states : List SysState) (rid : String), SysInv s →
    runEvents s evs = some states → (∀ e ∈ evs, cbHasJobId e) →
    GoodFrom (statusOf s.storage rid) (statusTrace states rid) := by
  intro evs
  induction evs with
  | nil =>
      intro s states rid _ hrun _
      simp [runEvents] at hrun
      subst hrun
      simp [statusTrace, GoodFrom]
  | cons e es ih =>
      intro s states rid hInv hrun hcb
      simp only [runEvents, Option.bind_eq_bind] at hrun
      cases hstep : step s e with
      | none => rw [hstep] at hrun; simp at hrun
      | some s2 =>
          rw [hstep] at hrun
          simp only [Option.some_bind] at hrun
          cases hrest : runEvents s2 es with
          | none => rw [hrest] at hrun; simp at hrun
          | some rest =>
              rw [hrest] at hrun
              simp only [Option.some_bind, Option.some.injEq] at hrun
              subst hrun
              obtain ⟨hInv2, hss⟩ := step_preserves hInv (hcb e (by simp)) hstep
              have hcb2 : ∀ e2 ∈ es, cbHasJobId e2 := fun e2 he2 => hcb e2 (by simp [he2])
              have hgood := ih s2 rest rid hInv2 hrest hcb2
              have hs := hss rid
              cases ho2 : statusOf s2.storage rid with
              | none =>
                  have ho : statusOf s.storage rid = none := by
                    cases ho : statusOf s.storage rid with
                    | none => rfl
                    | some st =>
                        obtain ⟨t, ht, _⟩ := hs.2 st ho
                        rw [ho2] at ht
                        simp at ht
                  rw [ho]
                  have htr : statusTrace (s2 :: rest) rid = statusTrace rest rid := by
                    simp [statusTrace, List.filterMap_cons, ho2]
                  rw [htr]
                  rw [ho2] at hgood
                  exact hgood
              | some t =>
                  have htr : statusTrace (s2 :: rest) rid = t :: statusTrace rest rid := by
                    simp [statusTrace, List.filterMap_cons, ho2]
                  rw [htr]
                  refine ⟨?_, ?_, ?_⟩
                  · cases ho : statusOf s.storage rid with
                    | none =>
                        rcases hs.1 ho with h0 | h0
                        · rw [ho2] at h0
                          simp at h0
                        · rw [ho2] at h0
                          injection h0 with he
                          simp [← he, actualStates]
                    | some st =>
                        obtain ⟨t2, ht2, _, hmem⟩ := hs.2 st ho
                        rw [ho2] at ht2
                        injection ht2 with he
                        rw [he]
                        exact hmem
                  · intro st hst
                    obtain ⟨t2, ht2, hle, _⟩ := hs.2 st hst
                    rw [ho2] at ht2
                    injection ht2 with he
                    rw [he]
                    exact hle
                  · rw [ho2] at hgood
                    exact hgood

theorem goodFrom_mem : ∀ (l : List String) (o : Option String), GoodFrom o l →
    ∀ t ∈ l, t ∈ actualStates := by
  intro l
  induction l with
  | nil => simp
  | cons t rest ih =>
      intro o hg t2 ht2
      obtain ⟨hm, _, hrest⟩ := hg
      rcases List.mem_cons.mp ht2 with he | he
      · rw [he]
        exact hm
      · exact ih (some t) hrest t2 he

theorem goodFrom_chain : ∀ (l : List String) (o : Option String), GoodFrom o l →
    List.Chain' statusLe l := by
  intro l
  induction l with
  | nil => intro o _; exact List.chain'_nil
  | cons t rest ih =>
      intro o hg
      obtain ⟨_, _, hrest⟩ := hg
      rw [List.chain'_cons']
      constructor
      · intro h hh
        cases rest with
        | nil => simp at hh
        | cons t2 r2 =>
            simp at hh
            rw [← hh]
            exact hrest.2.1 t rfl
      · exact ih (some t) hrest

theorem mkRequestId_inj {s1 s2 u1 u2 : String} (hlen : s1.length = s2.length)
    (h : mkRequestId s1 u1 = mkRequestId s2 u2) : s1 = s2 ∧ u1 = u2 := by
  unfold mkRequestId at h
  have hd := congrArg String.data h
  simp only [String.data_append, List.append_assoc] at hd
  have hd2 := List.append_cancel_left hd
  have hlen2 : s1.data.length = s2.data.length := hlen
  obtain ⟨h1, h2⟩ := List.append_inj hd2 hlen2
  have h3 := List.append_cancel_left h2
  exact ⟨String.ext h1, String.ext h3⟩

theorem pollCredentials_found (credsAt : Nat → Dict Credential) (tid : String) :
    ∀ (fuel tick k : Nat) (c : Credential), k < fuel →
    (∀ i, i < k → lookupA (credsAt (tick + i)) tid = none) →
    lookupA (credsAt (tick + k)) tid = some c →
    pollCredentials credsAt tid tick fuel = .ok c := by
  intro fuel
  induction fuel with
  | zero =>
      intro tick k c hk
      exact absurd hk (by omega)
  | succ fuel ih =>
      intro tick k c hk hnone hsome
      cases k with
      | zero =>
          have h0 : lookupA (credsAt tick) tid = some c := by simpa using hsome
          simp [pollCredentials, h0]
      | succ k2 =>
          have h0 : lookupA (credsAt tick) tid = none := by
            have := hnone 0 (by omega)
            simpa using this
          simp only [pollCredentials, h0]
          apply ih (tick + 1) k2 c (by omega)
          · intro i hi
            have hh := hnone (i + 1) (by omega)
            have harith : tick + (i + 1) = tick + 1 + i := by omega
            rw [harith] at hh
            exact hh
          · have harith : tick + (k2 + 1) = tick + 1 + k2 := by omega
            rw [harith] at hsome
            exact hsome

theorem pollCredentials_error_iff (credsAt : Nat → Dict Credential) (tid : String) :
    ∀ (fuel tick : Nat),
    (pollCredentials credsAt tid tick fuel =
        .error ("Credentials not received for transfer " ++ tid) ↔
      ∀ k, k < fuel → lookupA (credsAt (tick + k)) tid = none) := by
  intro fuel
  induction fuel with
  | zero =>
      intro tick
      constructor
      · intro _ k hk
        exact absurd hk (by omega)
      · intro _
        rfl
  | succ fuel ih =>
      intro tick
      cases h0 : lookupA (credsAt tick) tid with
      | some c =>
          constructor
          · intro habs
            simp [pollCredentials, h0] at habs
          · intro hall
            have hh := hall 0 (by omega)
            rw [Nat.add_zero, h0] at hh
            simp at hh
      | none =>
          constructor
          · intro hrun k hk
            cases k with
            | zero => simpa using h0
            | succ k2 =>
                have hrun2 : pollCredentials credsAt tid (tick + 1) fuel =
                    .error ("Credentials not received for transfer " ++ tid) := by
                  simpa [pollCredentials, h0] using hrun
                have hh := (ih (tick + 1)).mp hrun2 k2 (by omega)
                have harith : tick + (k2 + 1) = tick + 1 + k2 := by omega
                rw [harith]
                exact hh
          · intro hall
            simp only [pollCredentials, h0]
            apply (ih (tick + 1)).mpr
            intro k hk
            have hh := hall (k + 1) (by omega)
            have harith : tick + (k + 1) = tick + 1 + k := by omega
            rw [harith] at hh
            exact hh

theorem run_edcpy_ok {env : EdcEnv} {req : F1ToolRequest} {agr tid : String}
    {cred : Credential} {tok j : String}
    (hneg : env.negotiation = .ok agr) (htrans : env.transfer = .ok tid)
    (hcred : get_credentials env.credsAt tid 60 = .ok cred)
    (htok : extractAccessToken cred = .ok tok)
    (hinv : (call_dss_f1_service_with_token env.respond tok req).2 = .ok j) :
    run_edcpy_negotiation_and_transfer env req = .ok j := by
  unfold run_edcpy_negotiation_and_transfer
  rw [hneg, htrans]
  show (get_credentials env.credsAt tid 60).bind _ = _
  rw [hcred]
  show (extractAccessToken cred).bind _ = _
  rw [htok]
  exact hinv

theorem run_edcpy_error_neg {env : EdcEnv} {req : F1ToolRequest} {e : String}
    (hneg : env.negotiation = .error e) :
    run_edcpy_negotiation_and_transfer env req = .error e := by
  unfold run_edcpy_negotiation_and_transfer
  rw [hneg]
  rfl

theorem webhookMatch_completeRecord (r : Record) (u now : String) (cb : CallbackData) :
    webhookMatch (completeRecord r cb now) u cb = webhookMatch r u cb := by
  unfold webhookMatch
  rw [lookupA_completeRecord_user, lookupA_completeRecord_job]

theorem process_f1_request_ok (storage : Registry) (rid : String) (env : EdcEnv)
    (req : F1ToolRequest) (r0 : Record) (j : String)
    (hr : lookupA storage rid = some r0)
    (hrun : run_edcpy_negotiation_and_transfer env req = .ok j) :
    process_f1_request storage rid env req =
      (do
        let s2 ← setField
          (setA storage rid (setA r0 "status" (.str "processing_via_edcpy")))
          rid "dss_job_id" (.str j)
        setField s2 rid "status" (.str "dss_job_running")) := by
  unfold process_f1_request
  rw [setField_of_lookup hr]
  simp only [Option.bind_eq_bind, Option.some_bind]
  rw [hrun]

theorem process_f1_request_err (storage : Registry) (rid : String) (env : EdcEnv)
    (req : F1ToolRequest) (r0 : Record) (e : String)
    (hr : lookupA storage rid = some r0)
    (hrun : run_edcpy_negotiation_and_transfer env req = .error e) :
    process_f1_request storage rid env req =
      (do
        let s2 ← setField
          (setA storage rid (setA r0 "status" (.str "processing_via_edcpy")))
          rid "status" (.str "failed")
        setField s2 rid "error" (.str e)) := by
  unfold process_f1_request
  rw [setField_of_lookup hr]
  simp only [Option.bind_eq_bind, Option.some_bind]
  rw [hrun]

/-- C1, counterexample: the claim restricts statuses to the set
initiated, negotiating, transfer_initiating, awaiting_credential,
invoking, job_running, completed, failed; but already the second write
of the workflow puts the status processing_via_edcpy — a value outside
that set — into the registry. -/
theorem spec_c1_counterexample :
    "processing_via_edcpy" ∈
      statusTrace ((runEvents initState c1Events).getD []) sampleRid ∧
    "processing_via_edcpy" ∉ claimedStates := by
  decide

/-- C1, amended: along any interleaved execution of admissions,
background workflow chunks and webhook deliveries in which every
delivered callback body carries a job_id, the statuses written for one
request all lie in the set initiated, processing_via_edcpy,
dss_job_running, completed, failed, and the observed status sequence of
each request is non-decreasing in that order, with completed and failed
absorbing. -/
theorem spec_c1 (evs : List Event) (states : List SysState) (rid : String)
    (hrun : runEvents initState evs = some states)
    (hcb : ∀ e ∈ evs, cbHasJobId e) :
    (∀ st ∈ statusTrace states rid, st ∈ actualStates) ∧
    List.Chain' statusLe (statusTrace states rid) := by
  have hg := runEvents_good evs initState states rid sysInv_init hrun hcb
  exact ⟨goodFrom_mem _ _ hg, goodFrom_chain _ _ hg⟩

/-- C1, witness: the happy-path execution of the concrete scenario
satisfies the amended claim. -/
theorem spec_c1_witness :
    (∀ st ∈ statusTrace ((runEvents initState demoEvents).getD []) sampleRid,
      st ∈ actualStates) ∧
    List.Chain' statusLe
      (statusTrace ((runEvents initState demoEvents).getD []) sampleRid) :=
  spec_c1 demoEvents ((runEvents initState demoEvents).getD []) sampleRid
    (by rfl) (by decide)

/-- C2, counterexample: two admissions with the same user in the same
formatted second receive the same request_id, and the second admission
overwrites the record of the first, leaving a single record. -/
theorem spec_c2_counterexample :
    (request_f1_tool [] sampleStamp "T0" sampleReq).2.request_id =
      (request_f1_tool (request_f1_tool [] sampleStamp "T0" sampleReq).1
        sampleStamp "T1" sampleReq).2.request_id ∧
    ((request_f1_tool (request_f1_tool [] sampleStamp "T0" sampleReq).1
        sampleStamp "T1" sampleReq).1).length = 1 := by
  decide

/-- C2, amended: request_id values of two admissions are distinct
whenever the admission stamps (equal-length strftime outputs of the
fixed-width format) differ or the user_id values differ; two requests
with the same user_id admitted in the same second collide. -/
theorem spec_c2 (storage1 storage2 : Registry) (s1 c1 s2 c2 : String)
    (r1 r2 : F1ToolRequest) (hlen : s1.length = s2.length)
    (hne : s1 ≠ s2 ∨ r1.user_id ≠ r2.user_id) :
    (request_f1_tool storage1 s1 c1 r1).2.request_id ≠
      (request_f1_tool storage2 s2 c2 r2).2.request_id := by
  intro h
  have h2 : mkRequestId s1 r1.user_id = mkRequestId s2 r2.user_id := h
  obtain ⟨hs, hu⟩ := mkRequestId_inj hlen h2
  rcases hne with hne | hne
  · exact hne hs
  · exact hne hu

/-- C2, witness: admissions one second apart give distinct ids. -/
theorem spec_c2_witness :
    (request_f1_tool [] "20260101_120000" "T0" sampleReq).2.request_id ≠
      (request_f1_tool [] "20260101_120001" "T0" sampleReq).2.request_id :=
  spec_c2 [] [] "20260101_120000" "T0" "20260101_120001" "T0" sampleReq sampleReq
    rfl (Or.inl (by decide))

/-- C3, counterexample: running the concrete scenario of the
specification (negotiation finalized with agreement agr-1, transfer
started as tr-1, credential with authKey tok-1 received, job-1
created), the resulting record holds the dss_job_id but has no
contract_agreement_id and no transfer_process_id key at all. -/
theorem spec_c3_counterexample :
    sampleEnv.negotiation = .ok "agr-1" ∧
    sampleEnv.transfer = .ok "tr-1" ∧
    (c3Processed.bind (fun st => lookupA st sampleRid)).bind
      (fun r => lookupA r "dss_job_id") = some (.str "job-1") ∧
    (c3Processed.bind (fun st => lookupA st sampleRid)).bind
      (fun r => lookupA r "contract_agreement_id") = none ∧
    (c3Processed.bind (fun st => lookupA st sampleRid)).bind
      (fun r => lookupA r "transfer_process_id") = none :=
  ⟨rfl, rfl, rfl, rfl, rfl⟩

/-- C3, amended: when negotiation, transfer, credential receipt and
invocation all succeed, the record afterwards holds the obtained job id
in dss_job_id and stands in dss_job_running, but the agreement id and
the transfer id are transient values of the workflow run: the record
keeps no contract_agreement_id and no transfer_process_id field (for a
record created without them, they stay absent). -/
theorem spec_c3 (storage : Registry) (rid : String) (env : EdcEnv)
    (req : F1ToolRequest) (r0 : Record) (agr tid : String) (cred : Credential)
    (tok j : String)
    (hr : lookupA storage rid = some r0)
    (hagr : lookupA r0 "contract_agreement_id" = none)
    (htid : lookupA r0 "transfer_process_id" = none)
    (hneg : env.negotiation = .ok agr)
    (htrans : env.transfer = .ok tid)
    (hcred : get_credentials env.credsAt tid 60 = .ok cred)
    (htok : extractAccessToken cred = .ok tok)
    (hinv : (call_dss_f1_service_with_token env.respond tok req).2 = .ok j) :
    ∃ st r2, process_f1_request storage rid env req = some st ∧
      lookupA st rid = some r2 ∧
      lookupA r2 "dss_job_id" = some (.str j) ∧
      lookupA r2 "status" = some (.str "dss_job_running") ∧
      lookupA r2 "contract_agreement_id" = none ∧
      lookupA r2 "transfer_process_id" = none := by
  have hrun : run_edcpy_negotiation_and_transfer env req = .ok j :=
    run_edcpy_ok hneg htrans hcred htok hinv
  rw [process_f1_request_ok storage rid env req r0 j hr hrun]
  rw [setField_of_lookup (lookupA_setA_self storage rid
    (setA r0 "status" (.str "processing_via_edcpy")))]
  simp only [Option.bind_eq_bind, Option.some_bind]
  rw [setField_of_lookup (lookupA_setA_self
    (setA storage rid (setA r0 "status" (.str "processing_via_edcpy"))) rid
    (setA (setA r0 "status" (.str "processing_via_edcpy")) "dss_job_id" (.str j)))]
  refine ⟨_, _, rfl, lookupA_setA_self _ _ _, ?_, lookupA_setA_self _ _ _, ?_, ?_⟩
  · rw [lookupA_setA_ne _ _ (by decide)]
    exact lookupA_setA_self _ _ _
  · rw [lookupA_setA_ne _ _ (by decide), lookupA_setA_ne _ _ (by decide),
      lookupA_setA_ne _ _ (by decide)]
    exact hagr
  · rw [lookupA_setA_ne _ _ (by decide), lookupA_setA_ne _ _ (by decide),
      lookupA_setA_ne _ _ (by decide)]
    exact htid

/-- C3, witness: the amended claim at the concrete scenario. -/
theorem spec_c3_witness :
    ∃ st r2, process_f1_request (request_f1_tool [] sampleStamp "T0" sampleReq).1
        sampleRid sampleEnv sampleReq = some st ∧
      lookupA st sampleRid = some r2 ∧
      lookupA r2 "dss_job_id" = some (.str "job-1") ∧
      lookupA r2 "status" = some (.str "dss_job_running") ∧
      lookupA r2 "contract_agreement_id" = none ∧
      lookupA r2 "transfer_process_id" = none :=
  spec_c3 (request_f1_tool [] sampleStamp "T0" sampleReq).1 sampleRid sampleEnv
    sampleReq (createRecord sampleRid "T0" sampleReq) "agr-1" "tr-1"
    { authKey := some "tok-1", token := none } "tok-1" "job-1"
    rfl rfl rfl rfl rfl rfl rfl rfl

/-- C4: the completion webhook scans the registry in insertion order;
with no matching record it reports no match and leaves the registry
untouched; at the first record matching the user and job it writes
status completed, attaches the result, stamps completed_at, and stops,
leaving every earlier and every later record exactly as it was. -/
theorem spec_c4 (storage : Registry) (u : String) (cb : CallbackData) (now : String) :
    ((∀ p ∈ storage, webhookMatch p.2 u cb = some false) →
      dss_webhook_callback storage u cb now = some (storage, false)) ∧
    (∀ pre rid r post, storage = pre ++ (rid, r) :: post →
      (∀ p ∈ pre, webhookMatch p.2 u cb = some false) →
      webhookMatch r u cb = some true →
      dss_webhook_callback storage u cb now =
        some (pre ++ (rid, completeRecord r cb now) :: post, true) ∧
      lookupA (completeRecord r cb now) "status" = some (.str "completed") ∧
      lookupA (completeRecord r cb now) "dss_result" =
        some (cb.result.getD (.payload 0)) ∧
      lookupA (completeRecord r cb now) "completed_at" = some (.str now)) := by
  constructor
  · intro hall
    exact scanRecords_nomatch hall
  · intro pre rid r post hsplit hpre hr
    subst hsplit
    exact ⟨scanRecords_break hpre hr, lookupA_completeRecord_status r cb now,
      lookupA_completeRecord_result r cb now, lookupA_completeRecord_at r cb now⟩

/-- C4, witness: a callback for an unknown job id matches nothing and
leaves the registry of the finished sample request unchanged. -/
theorem spec_c4_witness :
    dss_webhook_callback c5Registry "u1" cbOther "T9" = some (c5Registry, false) :=
  (spec_c4 c5Registry "u1" cbOther "T9").1 (by decide)

/-- C5, counterexample: delivering the identical completion callback a
second time re-mutates completed_at: after the first delivery at T1 the
record carries completed_at T1, after the identical second delivery at
T2 it carries completed_at T2. -/
theorem spec_c5_counterexample :
    lookupA ((lookupA (whOnce c5Registry "T1") sampleRid).getD []) "completed_at" =
      some (.str "T1") ∧
    lookupA ((lookupA (whOnce (whOnce c5Registry "T1") "T2") sampleRid).getD [])
      "completed_at" = some (.str "T2") ∧
    Val.str "T2" ≠ Val.str "T1" := by
  decide

/-- C5, amended: applying the completion handler twice with identical
arguments never throws and leaves the matched record in status
completed after each application; the second application matches the
same record again and re-stamps completed_at with its own call time
(so completed_at is re-mutated when the times differ), but the status
never moves away from completed. -/
theorem spec_c5 (pre post : Registry) (rid : String) (r : Record)
    (u now1 now2 : String) (cb : CallbackData)
    (hpre : ∀ p ∈ pre, webhookMatch p.2 u cb = some false)
    (hr : webhookMatch r u cb = some true) :
    dss_webhook_callback (pre ++ (rid, r) :: post) u cb now1 =
      some (pre ++ (rid, completeRecord r cb now1) :: post, true) ∧
    dss_webhook_callback (pre ++ (rid, completeRecord r cb now1) :: post) u cb now2 =
      some (pre ++ (rid, completeRecord (completeRecord r cb now1) cb now2) :: post,
        true) ∧
    lookupA (completeRecord r cb now1) "status" = some (.str "completed") ∧
    lookupA (completeRecord (completeRecord r cb now1) cb now2) "status" =
      some (.str "completed") ∧
    lookupA (completeRecord (completeRecord r cb now1) cb now2) "completed_at" =
      some (.str now2) := by
  have hr2 : webhookMatch (completeRecord r cb now1) u cb = some true := by
    rw [webhookMatch_completeRecord]
    exact hr
  exact ⟨scanRecords_break hpre hr, scanRecords_break hpre hr2,
    lookupA_completeRecord_status r cb now1,
    lookupA_completeRecord_status (completeRecord r cb now1) cb now2,
    lookupA_completeRecord_at (completeRecord r cb now1) cb now2⟩

/-- C5, witness: the amended claim at the finished sample request. -/
theorem spec_c5_witness :
    dss_webhook_callback [(sampleRid, c5Record)] "u1" sampleCb "T1" =
      some ([(sampleRid, completeRecord c5Record sampleCb "T1")], true) ∧
    dss_webhook_callback [(sampleRid, completeRecord c5Record sampleCb "T1")] "u1"
        sampleCb "T2" =
      some ([(sampleRid,
        completeRecord (completeRecord c5Record sampleCb "T1") sampleCb "T2")], true) ∧
    lookupA (completeRecord c5Record sampleCb "T1") "status" =
      some (.str "completed") ∧
    lookupA (completeRecord (completeRecord c5Record sampleCb "T1") sampleCb "T2")
      "status" = some (.str "completed") ∧
    lookupA (completeRecord (completeRecord c5Record sampleCb "T1") sampleCb "T2")
      "completed_at" = some (.str "T2") :=
  spec_c5 [] [] sampleRid c5Record "u1" "T1" "T2" sampleCb (by simp) (by decide)

/-- C6, counterexample: with timeout 0 the polling loop body never
runs, so get_credentials raises the timeout error even though the
credential for tr-1 is already in the store when the call is made. -/
theorem spec_c6_counterexample :
    lookupA (sampleEnv.credsAt 0) "tr-1" =
      some { authKey := some "tok-1", token := none } ∧
    get_credentials sampleEnv.credsAt "tr-1" 0 =
      .error "Credentials not received for transfer tr-1" :=
  ⟨rfl, rfl⟩

/-- C6, amended: get_credentials polls the store once per 1-second tick
for timeout iterations.  For every timeout of at least 1, a credential
already present at the first tick is returned immediately; in general
the credential found at the first tick where the key is present (within
the timeout window) is returned; and the call raises the
credential-timeout error exactly when the key is absent at all timeout
polling ticks.  With timeout 0 the call raises unconditionally. -/
theorem spec_c6 (credsAt : Nat → Dict Credential) (transfer_id : String)
    (timeout : Nat) :
    (∀ c, 1 ≤ timeout → lookupA (credsAt 0) transfer_id = some c →
      get_credentials credsAt transfer_id timeout = .ok c) ∧
    (∀ k c, k < timeout → (∀ i, i < k → lookupA (credsAt i) transfer_id = none) →
      lookupA (credsAt k) transfer_id = some c →
      get_credentials credsAt transfer_id timeout = .ok c) ∧
    (get_credentials credsAt transfer_id timeout =
        .error ("Credentials not received for transfer " ++ transfer_id) ↔
      ∀ k, k < timeout → lookupA (credsAt k) transfer_id = none) := by
  refine ⟨?_, ?_, ?_⟩
  · intro c htime hc
    apply pollCredentials_found credsAt transfer_id timeout 0 0 c (by omega)
    · intro i hi
      exact absurd hi (by omega)
    · simpa using hc
  · intro k c hk hnone hsome
    apply pollCredentials_found credsAt transfer_id timeout 0 k c hk
    · intro i hi
      simpa using hnone i hi
    · simpa using hsome
  · have h := pollCredentials_error_iff credsAt transfer_id timeout 0
    constructor
    · intro hrun k hk
      have := h.mp hrun k hk
      simpa using this
    · intro hall
      apply h.mpr
      intro k hk
      simpa using hall k hk

/-- C6, witness: with the sample store and timeout 60 the credential
present at tick 0 is returned at once. -/
theorem spec_c6_witness :
    get_credentials sampleEnv.credsAt "tr-1" 60 =
      .ok { authKey := some "tok-1", token := none } :=
  (spec_c6 sampleEnv.credsAt "tr-1" 60).1 _ (by omega) rfl

/-- C7: the primary and fallback job calls carry the same body and the
same callback address; whenever the mediated call fails, exactly one
direct fallback call is issued and its outcome is returned as is (its
job id on success); and the invocation returns an error only when both
calls failed, propagating the cause of the fallback failure. -/
theorem spec_c7 (respond : HttpCall → Except String String) (tok : String)
    (req : F1ToolRequest) :
    ((primaryJobCall tok req).body = (directJobCall req).body ∧
     (primaryJobCall tok req).callback_url = (directJobCall req).callback_url) ∧
    (∀ e, respond (primaryJobCall tok req) = .error e →
      call_dss_f1_service_with_token respond tok req =
        ([primaryJobCall tok req, directJobCall req],
          respond (directJobCall req))) ∧
    (∀ e2, (call_dss_f1_service_with_token respond tok req).2 = .error e2 →
      (∃ e1, respond (primaryJobCall tok req) = .error e1) ∧
      respond (directJobCall req) = .error e2) := by
  refine ⟨⟨rfl, rfl⟩, ?_, ?_⟩
  · intro e he
    unfold call_dss_f1_service_with_token
    rw [he]
    rfl
  · intro e2 he2
    cases hresp : respond (primaryJobCall tok req) with
    | ok jid =>
        unfold call_dss_f1_service_with_token at he2
        rw [hresp] at he2
        simp at he2
    | error e1 =>
        unfold call_dss_f1_service_with_token at he2
        rw [hresp] at he2
        refine ⟨⟨e1, rfl⟩, ?_⟩
        simpa [call_dss_f1_service_direct] using he2

/-- C7, witness: with the connector down and the direct endpoint up,
the invocation issues the one fallback call and returns its job id. -/
theorem spec_c7_witness :
    call_dss_f1_service_with_token c7Respond "tok-1" sampleReq =
      ([primaryJobCall "tok-1" sampleReq, directJobCall sampleReq],
        c7Respond (directJobCall sampleReq)) :=
  (spec_c7 c7Respond "tok-1" sampleReq).2.1 "connector down" rfl

/-- C8: whenever the background workflow fails at any stage, the
process function records status failed and the captured error message
on the request record, leaves dss_job_id untouched (no later stage
runs), and returns normally rather than raising; moreover a negotiation
failure short-circuits the run: the result is the error itself, whatever
the later-stage environment would have answered. -/
theorem spec_c8 :
    (∀ (storage : Registry) (rid : String) (env : EdcEnv) (req : F1ToolRequest)
      (e : String) (r0 : Record), lookupA storage rid = some r0 →
      run_edcpy_negotiation_and_transfer env req = .error e →
      ∃ st r2, process_f1_request storage rid env req = some st ∧
        lookupA st rid = some r2 ∧
        lookupA r2 "status" = some (.str "failed") ∧
        lookupA r2 "error" = some (.str e) ∧
        lookupA r2 "dss_job_id" = lookupA r0 "dss_job_id") ∧
    (∀ (env : EdcEnv) (req : F1ToolRequest) (e : String),
      env.negotiation = .error e →
      run_edcpy_negotiation_and_transfer env req = .error e) := by
  constructor
  · intro storage rid env req e r0 hr hrun
    rw [process_f1_request_err storage rid env req r0 e hr hrun]
    rw [setField_of_lookup (lookupA_setA_self storage rid
      (setA r0 "status" (.str "processing_via_edcpy")))]
    simp only [Option.bind_eq_bind, Option.some_bind]
    rw [setField_of_lookup (lookupA_setA_self
      (setA storage rid (setA r0 "status" (.str "processing_via_edcpy"))) rid
      (setA (setA r0 "status" (.str "processing_via_edcpy")) "status"
        (.str "failed")))]
    refine ⟨_, _, rfl, lookupA_setA_self _ _ _, ?_, lookupA_setA_self _ _ _, ?_⟩
    · rw [lookupA_setA_ne _ _ (by decide)]
      exact lookupA_setA_self _ _ _
    · rw [lookupA_setA_ne _ _ (by decide), lookupA_setA_ne _ _ (by decide),
        lookupA_setA_ne _ _ (by decide)]
  · intro env req e hneg
    exact run_edcpy_error_neg hneg

/-- C8, witness: with the negotiation stage failing, the record of the
admitted sample request ends failed with the error recorded and no
dss_job_id. -/
theorem spec_c8_witness :
    ∃ st r2, process_f1_request (request_f1_tool [] sampleStamp "T0" sampleReq).1
        sampleRid c8Env sampleReq = some st ∧
      lookupA st sampleRid = some r2 ∧
      lookupA r2 "status" = some (.str "failed") ∧
      lookupA r2 "error" = some (.str "EDC negotiation and transfer failed") ∧
      lookupA r2 "dss_job_id" =
        lookupA (createRecord sampleRid "T0" sampleReq) "dss_job_id" :=
  spec_c8.1 (request_f1_tool [] sampleStamp "T0" sampleReq).1 sampleRid c8Env
    sampleReq "EDC negotiation and transfer failed"
    (createRecord sampleRid "T0" sampleReq) rfl rfl

/-- C9: when BACKEND_API_KEY is unset or empty, the API-key dependency
accepts every request, whatever the X-API-Key header holds (including a
missing header), and the responses of the DSS endpoints are identical
for any two supplied key values. -/
theorem spec_c9 (expected : Option String)
    (hexp : expected = none ∨ expected = some "") :
    (∀ k, get_api_key expected k = .ok k) ∧
    (∀ (storage : JobStorage) (k1 k2 : Option String),
      list_jobs storage expected k1 = list_jobs storage expected k2) ∧
    (∀ (storage : JobStorage) (jid : String) (k1 k2 : Option String),
      cancel_job storage jid expected k1 = cancel_job storage jid expected k2) := by
  have hk : ∀ k, get_api_key expected k = .ok k := by
    intro k
    rcases hexp with h | h <;> subst h <;> simp [get_api_key]
  refine ⟨hk, ?_, ?_⟩
  · intro storage k1 k2
    unfold list_jobs
    rw [hk k1, hk k2]
  · intro storage jid k1 k2
    unfold cancel_job
    rw [hk k1, hk k2]

/-- C9, witness: with the variable unset, both a missing and an
arbitrary wrong header value are accepted. -/
theorem spec_c9_witness :
    get_api_key none none = .ok none ∧
    get_api_key none (some "wrong-key") = .ok (some "wrong-key") ∧
    cancel_job c10Storage "nope" none none =
      cancel_job c10Storage "nope" none (some "wrong-key") := by
  have h := spec_c9 none (Or.inl rfl)
  exact ⟨h.1 none, h.1 (some "wrong-key"),
    h.2.2 c10Storage "nope" none (some "wrong-key")⟩

/-- C10: once authenticated, cancel_job returns 404 and changes nothing
for an unknown job id; returns 400 and changes nothing when the stored
status is completed or failed; and sets the status to cancelled exactly
when the job exists in a state other than completed and failed. -/
theorem spec_c10 (storage : JobStorage) (job_id : String)
    (expected api_key : Option String)
    (hauth : get_api_key expected api_key = .ok api_key) :
    (lookupA storage job_id = none →
      cancel_job storage job_id expected api_key =
        some (.error (404, "Job not found"), storage)) ∧
    (∀ job v, lookupA storage job_id = some job → lookupA job "status" = some v →
      (v = .str "completed" ∨ v = .str "failed") →
      cancel_job storage job_id expected api_key =
        some (.error (400, "Cannot cancel completed or failed job"), storage)) ∧
    (∀ job v, lookupA storage job_id = some job → lookupA job "status" = some v →
      ¬(v = .str "completed" ∨ v = .str "failed") →
      cancel_job storage job_id expected api_key =
        some (.ok ("Job " ++ job_id ++ " cancelled"),
          setA storage job_id (setA job "status" (.str "cancelled")))) := by
  refine ⟨?_, ?_, ?_⟩
  · intro hnone
    simp [cancel_job, hauth, hnone]
  · intro job v hj hv hterm
    rcases hterm with h | h <;> subst h <;> simp [cancel_job, hauth, hj, hv]
  · intro job v hj hv hterm
    simp [cancel_job, hauth, hj, hv, hterm]

/-- C10, witness: cancelling a completed job gives 400 and leaves the
storage unchanged; cancelling a running job marks it cancelled. -/
theorem spec_c10_witness :
    cancel_job c10Storage "j1" none none =
      some (.error (400, "Cannot cancel completed or failed job"), c10Storage) ∧
    cancel_job c10Storage "j2" none none =
      some (.ok "Job j2 cancelled",
        setA c10Storage "j2"
          (setA [("job_id", .str "j2"), ("status", .str "running")] "status"
            (.str "cancelled"))) := by
  have h := spec_c10 c10Storage "j1" none none rfl
  have h2 := spec_c10 c10Storage "j2" none none rfl
  refine ⟨h.2.1 _ (.str "completed") rfl rfl (Or.inl rfl), ?_⟩
  exact h2.2.2 _ (.str "running") rfl rfl (by decide)

end DssSeq